import Mathlib

set_option maxHeartbeats 4000000
set_option maxRecDepth 8000

/- Shallow embedding of the cube engine of src/rubiks_simple.py:
   the move-table builder, move application, scrambling, the solved check,
   the piece-location queries, the layer-by-layer solver pipeline and the
   move-sequence simplifier.  Machine strings are Lean strings; the facelet
   array is a list of 54 color numbers; in-place mutation is modelled by
   returning the updated array.  The apostrophe character used by the move
   notation is written via its code point. -/

def prime : Char := Char.ofNat 39

def primeStr : String := String.singleton prime

-- apply_move core: new[i] = old[permutation[i]]
def apply_perm (p : List Nat) (s : List Nat) : List Nat :=
  p.map (fun i => s.getD i 0)

-- rotate_90 from RubiksCube._generate_permutation
def rotate_90 (idx : List Nat) : List Nat :=
  [idx.getD 6 0, idx.getD 3 0, idx.getD 0 0,
   idx.getD 7 0, idx.getD 4 0, idx.getD 1 0,
   idx.getD 8 0, idx.getD 5 0, idx.getD 2 0]

-- face_offsets dict; only ever consulted at the six face letters
def face_offset (f : Char) : Nat :=
  if f == 'U' then 0 else if f == 'D' then 9 else if f == 'L' then 18
  else if f == 'R' then 27 else if f == 'F' then 36 else 45

-- edge_cycles dict, with the .get default of the empty list
def edge_cycles (f : Char) : List (Nat × Nat × Nat × Nat) :=
  if f == 'U' then [(36,18,45,27),(37,19,46,28),(38,20,47,29)]
  else if f == 'D' then [(42,33,51,24),(43,34,52,25),(44,35,53,26)]
  else if f == 'L' then [(0,45,9,36),(3,48,12,39),(6,51,15,42)]
  else if f == 'R' then [(2,38,11,47),(5,41,14,50),(8,44,17,53)]
  else if f == 'F' then [(6,27,15,18),(7,30,16,21),(8,33,17,24)]
  else if f == 'B' then [(0,20,9,29),(1,23,10,32),(2,26,11,35)]
  else []

-- one in-place rotation of a 4-cycle, reads interleaved with writes as in
-- the source loop: temp = p[c3]; p[c3] = p[c2]; p[c2] = p[c1]; p[c1] = p[c0];
-- p[c0] = temp
def cycle_once (perm : List Nat) (c : Nat × Nat × Nat × Nat) : List Nat :=
  let t := perm.getD c.2.2.2 0
  let p1 := perm.set c.2.2.2 (perm.getD c.2.2.1 0)
  let p2 := p1.set c.2.2.1 (p1.getD c.2.1 0)
  let p3 := p2.set c.2.1 (p2.getD c.1 0)
  p3.set c.1 t

def iterate_n {α : Type} (f : α → α) : Nat → α → α
  | 0, a => a
  | k+1, a => iterate_n f k (f a)

-- RubiksCube._generate_permutation
def generate_permutation (face : Char) (turns : Nat) : List Nat :=
  let offset := face_offset face
  let face_indices := (List.range 9).map (fun i => offset + i)
  let rotated := iterate_n rotate_90 turns face_indices
  let perm1 := (face_indices.zip rotated).foldl
    (fun p pr => p.set pr.1 pr.2) (List.range 54)
  (edge_cycles face).foldl
    (fun p c => iterate_n (fun q => cycle_once q c) turns p) perm1

def base_move_chars : List Char := ['U', 'D', 'L', 'R', 'F', 'B']

def suffixes : List String := ["", primeStr, "2"]

-- turns = 1 if suffix == "" else (3 if suffix is the apostrophe else 2)
def suffix_turns (s : String) : Nat :=
  if s == "" then 1 else if s == primeStr then 3 else 2

-- RubiksCube._init_move_tables: insertion order U, U-prime, U2, D, ...
def MOVE_TABLES : List (String × List Nat) :=
  base_move_chars.flatMap (fun face =>
    suffixes.map (fun suf =>
      (String.singleton face ++ suf, generate_permutation face (suffix_turns suf))))

-- list(MOVE_TABLES.keys())
def all_moves : List String := MOVE_TABLES.map Prod.fst

-- RubiksCube.apply_move; a key miss after the fallback is the KeyError,
-- modelled as none
def apply_move (s : List Nat) (move : String) : Option (List Nat) :=
  let m := if (MOVE_TABLES.lookup move).isSome then move
           else if move.data.isEmpty then move
           else String.singleton (move.data.headD prime)
  (MOVE_TABLES.lookup m).map (fun p => apply_perm p s)

def replayMoves (s : List Nat) (ms : List String) : Option (List Nat) :=
  ms.foldlM apply_move s

-- RubiksCube.reset
def reset_stickers : List Nat :=
  (List.range 6).flatMap (fun face => List.replicate 9 face)

-- RubiksCube.is_solved
def is_solved (s : List Nat) : Bool :=
  (List.range 6).all (fun face =>
    (List.range 9).all (fun i =>
      s.getD (face * 9 + i) 0 == s.getD (face * 9 + 4) 0))

-- direction of a move string as computed inside RubiksCube.scramble
def scr_dir (m : String) : Nat :=
  let d := if m.data.contains prime then 3 else 1
  if m.data.contains '2' then 2 else d

-- the rejection test of RubiksCube.scramble for a candidate following a
-- previously applied move: same face letter and turn counts summing to 0 mod 4
def cancels (last mv : String) : Bool :=
  (mv.data.headD prime == last.data.headD prime) &&
    ((scr_dir mv + scr_dir last) % 4 == 0)

-- RubiksCube.scramble; random.choice(all_moves) is modelled by an injected
-- source rng of indices into the table (reduced mod its length), consumed
-- once per loop iteration.  The second component records the moves actually
-- applied.  The getD default is never used: the index is always in range.
def scramble_go (rng : Nat → Nat) : Nat → Nat → String → List Nat → List Nat × List String
  | 0, _, _, s => (s, [])
  | k+1, idx, last, s =>
    let pr := MOVE_TABLES.getD (rng idx % MOVE_TABLES.length) ("U", List.range 54)
    if !(last == "") && cancels last pr.1 then
      scramble_go rng k (idx+1) last s
    else
      let r := scramble_go rng k (idx+1) pr.1 (apply_perm pr.2 s)
      (r.1, pr.1 :: r.2)

def scramble (n : Nat) (rng : Nat → Nat) (s : List Nat) : List Nat × List String :=
  scramble_go rng n 0 "" s

-- normalize_move inside LayerByLayerSolver._simplify_moves
def normalize_move (m : String) : String × Nat :=
  if m.data.length == 1 then (m, 1)
  else if m.data.getLast? == some prime then (String.singleton (m.data.headD prime), 3)
  else if m.data.getLast? == some '2' then (String.singleton (m.data.headD prime), 2)
  else (m, 1)

-- the rendering if-chain shared by the merge, different-face and last-move
-- branches of _simplify_moves (a total direction of 0 appends nothing)
def render_move (f : String) (d : Nat) : List String :=
  if d == 1 then [f] else if d == 2 then [f ++ "2"]
  else if d == 3 then [f ++ primeStr] else []

-- one scan of the while-loop of _simplify_moves: a merged pair consumes both
-- moves, an unmerged move is re-rendered and the scan moves on by one
def simplify_pass : List String → List String
  | [] => []
  | [m] =>
    let n := normalize_move m
    render_move n.1 n.2
  | m1 :: m2 :: rest =>
    let n1 := normalize_move m1
    let n2 := normalize_move m2
    if n1.1 == n2.1 then
      render_move n1.1 ((n1.2 + n2.2) % 4) ++ simplify_pass rest
    else
      render_move n1.1 n1.2 ++ simplify_pass (m2 :: rest)

-- the tail-recursive self-call of _simplify_moves, fuelled by the length of
-- the list: each recursion strictly shrinks the list, so a fuel equal to the
-- initial length is never exhausted
def simplify_fix : Nat → List String → List String
  | 0, ms => ms
  | fuel+1, ms =>
    if ms.isEmpty then [] else
    let t := simplify_pass ms
    if t.length < ms.length then simplify_fix fuel t else t

def simplify_moves (ms : List String) : List String :=
  simplify_fix ms.length ms

/- Definitions supporting the statements and proofs. -/

-- composition of permutation tables: applying q then p
def compPerm (p q : List Nat) : List Nat := p.map (fun i => q.getD i 0)

def nface (m : String) : String := (normalize_move m).1

def ndir (m : String) : Nat := (normalize_move m).2

-- the single move a direction of 1, 2 or 3 renders to
def rmove (f : String) (t : Nat) : String :=
  if t == 2 then f ++ "2" else if t == 3 then f ++ primeStr else f

-- re-rendering of one move by a simplifier scan
def rr (m : String) : String := rmove (nface m) (ndir m)

-- no two adjacent moves share a normalized face (nothing left to merge)
def no_merge_pair : List String → Bool
  | [] => true
  | [_] => true
  | a :: b :: rest => !(nface a == nface b) && no_merge_pair (b :: rest)

-- no two adjacent applied moves would have cancelled in scramble
def no_cancel_chain : List String → Bool
  | [] => true
  | [_] => true
  | a :: b :: rest => !(cancels a b) && no_cancel_chain (b :: rest)

def face_letters : List Char := ['U', 'D', 'L', 'R', 'F', 'B']

/- The layer-by-layer solver pipeline.  Exceptions of the source are the
   values of PyErr; they are all caught by the try/except of solve, which
   then returns the empty sequence. -/

inductive PyErr where
  | budget   -- RuntimeError raised by _safe_while_loop
  | typeErr  -- TypeError: the builtin all applied to three arguments
  | nameErr  -- NameError: a moves variable referenced but never assigned
  | recLimit -- RecursionError of the retry recursion / an unguarded loop

-- the working cube and the accumulated solution log of the solver object
structure SState where
  cube : List Nat
  sol : List String

-- every move issued by the pipeline is one of the 18 table keys, so this
-- lookup never falls back to its default
def tbl (m : String) : List Nat :=
  (MOVE_TABLES.lookup m).getD (List.range 54)

-- cube.apply_move(move); self.solution.append(move)
def doMove (st : SState) (m : String) : SState :=
  { cube := apply_perm (tbl m) st.cube, sol := st.sol ++ [m] }

def doMoves (st : SState) (ms : List String) : SState :=
  ms.foldl doMove st

-- FACE_LETTERS dict; only ever consulted at the six face letters
def face_letter (f : Char) : Nat :=
  if f == 'U' then 0 else if f == 'D' then 1 else if f == 'L' then 2
  else if f == 'R' then 3 else if f == 'F' then 4 else 5

def get_sticker (cube : List Nat) (f : Char) (r c : Nat) : Nat :=
  cube.getD (face_letter f * 9 + r * 3 + c) 0

def EDGE_POSITIONS : List (Char × Nat × Nat × Char × Nat × Nat) :=
  [('U',0,1,'B',0,1), ('U',1,0,'L',0,1), ('U',1,2,'R',0,1), ('U',2,1,'F',0,1),
   ('D',0,1,'F',2,1), ('D',1,0,'L',2,1), ('D',1,2,'R',2,1), ('D',2,1,'B',2,1),
   ('F',1,0,'L',1,2), ('F',1,2,'R',1,0), ('B',1,0,'R',1,2), ('B',1,2,'L',1,0)]

def CORNER_POSITIONS : List (Char × Nat × Nat × Char × Nat × Nat × Char × Nat × Nat) :=
  [('U',0,0,'L',0,0,'B',0,2), ('U',0,2,'B',0,0,'R',0,2),
   ('U',2,0,'F',0,0,'L',0,2), ('U',2,2,'R',0,0,'F',0,2),
   ('D',0,0,'L',2,2,'F',2,0), ('D',0,2,'F',2,2,'R',2,0),
   ('D',2,0,'B',2,2,'L',2,0), ('D',2,2,'R',2,2,'B',2,0)]

-- two-element set equality, as the source compares {a, b} == {x, y}
def pair_set_eq (a b x y : Nat) : Bool :=
  (a == x && b == y) || (a == y && b == x)

def mem3 (a b c v : Nat) : Bool := v == a || v == b || v == c

-- three-element set equality, as the source compares {a, b, c} == {x, y, z}
def triple_set_eq (a b c x y z : Nat) : Bool :=
  mem3 x y z a && mem3 x y z b && mem3 x y z c &&
  mem3 a b c x && mem3 a b c y && mem3 a b c z

abbrev EInfo := Char × Nat × Nat × Char × Nat × Nat

abbrev CInfo := Char × Nat × Nat × Char × Nat × Nat × Char × Nat × Nat

-- RubiksCube.find_edge: first slot whose two colors form the requested set
def find_edge (cube : List Nat) (c1 c2 : Nat) : Option EInfo :=
  EDGE_POSITIONS.find? (fun e => match e with
    | (f1, r1, cc1, f2, r2, cc2) =>
      pair_set_eq (get_sticker cube f1 r1 cc1) (get_sticker cube f2 r2 cc2) c1 c2)

-- RubiksCube.find_corner
def find_corner (cube : List Nat) (c1 c2 c3 : Nat) : Option CInfo :=
  CORNER_POSITIONS.find? (fun e => match e with
    | (f1, r1, cc1, f2, r2, cc2, f3, r3, cc3) =>
      triple_set_eq (get_sticker cube f1 r1 cc1) (get_sticker cube f2 r2 cc2)
        (get_sticker cube f3 r3 cc3) c1 c2 c3)

-- LayerByLayerSolver._safe_while_loop with MAX_ITERATIONS_PER_STEP = 50:
-- performing all 50 actions raises whether or not the condition then holds
def safe_while_go {α : Type} (cond : α → Bool) (act : α → α) : Nat → α → Except PyErr α
  | 0, _ => Except.error PyErr.budget
  | k+1, st => if cond st then safe_while_go cond act k (act st) else Except.ok st

def safe_while {α : Type} (cond : α → Bool) (act : α → α) (st : α) : Except PyErr α :=
  safe_while_go cond act 50 st

/- Step 1: the white cross. -/

-- the loop action of _handle_edge_on_u_face and _handle_edge_on_d_face:
-- turn the given face and refresh the tracked edge coordinates when the
-- edge is found again (they are left stale when it is not)
def turn_refresh (face : String) (white side : Nat) (p : SState × EInfo) : SState × EInfo :=
  let st2 := doMove p.1 face
  match find_edge st2.cube white side with
  | some e => (st2, e)
  | none => (st2, p.2)

-- the one-move insertion if-chain shared by _handle_edge_on_u_face and
-- _handle_edge_on_d_face; any other target leaves moves unassigned
def cross_insertion (target : Char) : Except PyErr (List String) :=
  if target == 'F' then Except.ok ["F2"]
  else if target == 'R' then Except.ok ["R2"]
  else if target == 'B' then Except.ok ["B2"]
  else if target == 'L' then Except.ok ["L2"]
  else Except.error PyErr.nameErr

def handle_edge_on_u_face (white side : Nat) (target : Char) (st : SState) :
    Except PyErr SState :=
  match find_edge st.cube white side with
  | none => Except.ok st
  | some e0 => do
    let r ← safe_while
      (fun (p : SState × EInfo) => match p.2 with | (_, _, _, f2, _, _) => !(f2 == target))
      (turn_refresh "U" white side) (st, e0)
    let mvs ← cross_insertion target
    Except.ok (doMoves r.1 mvs)

def handle_edge_in_middle_layer (white side : Nat) (target f1 : Char) (c1 : Nat)
    (st : SState) : Except PyErr SState := do
  let mvs ←
    if f1 == 'F' then
      Except.ok (if c1 == 0 then ["L" ++ primeStr, "U" ++ primeStr, "L", "U"]
                 else ["R", "U", "R" ++ primeStr, "U" ++ primeStr])
    else if f1 == 'R' then
      Except.ok (if c1 == 0 then ["F", "U", "F" ++ primeStr, "U" ++ primeStr]
                 else ["B" ++ primeStr, "U" ++ primeStr, "B", "U"])
    else if f1 == 'B' then
      Except.ok (if c1 == 0 then ["R" ++ primeStr, "U" ++ primeStr, "R", "U"]
                 else ["L", "U", "L" ++ primeStr, "U" ++ primeStr])
    else if f1 == 'L' then
      Except.ok (if c1 == 0 then ["B", "U", "B" ++ primeStr, "U" ++ primeStr]
                 else ["F" ++ primeStr, "U" ++ primeStr, "F", "U"])
    else Except.error PyErr.nameErr
  handle_edge_on_u_face white side target (doMoves st mvs)

def handle_edge_on_d_face (white side : Nat) (target : Char) (st : SState) :
    Except PyErr SState :=
  match find_edge st.cube white side with
  | none => Except.ok st
  | some e0 =>
    match e0 with
    | (f1, r1, cc1, f2, _, _) =>
      let white_face := if get_sticker st.cube f1 r1 cc1 == white then f1 else f2
      let other_face := if white_face == f1 then f2 else f1
      -- the condition only reads other_face, computed once before the loop
      do
        let r ← safe_while (fun (_ : SState × EInfo) => !(other_face == target))
          (turn_refresh "D" white side) (st, e0)
        let mvs ← cross_insertion target
        Except.ok (doMoves r.1 mvs)

def sideFace (f : Char) : Bool := f == 'F' || f == 'R' || f == 'B' || f == 'L'

-- _position_white_edge_safely; the final case applies the 6-move disruption
-- of _handle_edge_other_position and retries, fuelled like the interpreter
-- recursion limit (its exhaustion, like RecursionError, aborts the solve)
def position_white_edge_safely : Nat → Nat → Nat → Char → SState → Except PyErr SState
  | 0, _, _, _, _ => Except.error PyErr.recLimit
  | fuel+1, white, side, target, st =>
    match find_edge st.cube white side with
    | none => Except.ok st
    | some (f1, r1, c1, f2, r2, c2) =>
      if f1 == 'U' && r1 == 2 && c1 == 1 && f2 == target && r2 == 0 && c2 == 1 then
        Except.ok st
      else if f1 == 'U' then handle_edge_on_u_face white side target st
      else if sideFace f1 && sideFace f2 then
        handle_edge_in_middle_layer white side target f1 c1 st
      else if f1 == 'D' || f2 == 'D' then handle_edge_on_d_face white side target st
      else
        position_white_edge_safely fuel white side target
          (doMoves st ["F", "R", "U", "R" ++ primeStr, "U" ++ primeStr, "F" ++ primeStr])

def RECURSION_FUEL : Nat := 100

def solve_white_cross (st : SState) : Except PyErr SState := do
  let st ← position_white_edge_safely RECURSION_FUEL 0 4 'F' st
  let st ← position_white_edge_safely RECURSION_FUEL 0 3 'R' st
  let st ← position_white_edge_safely RECURSION_FUEL 0 5 'B' st
  position_white_edge_safely RECURSION_FUEL 0 2 'L' st

/- Step 2: the first-layer corners. -/

-- color_to_face dict lookup with .get (None on a miss)
def color_to_face (c : Nat) : Option Char :=
  if c == 4 then some 'F' else if c == 3 then some 'R'
  else if c == 5 then some 'B' else if c == 2 then some 'L' else none

def get_target_faces_for_corner (c1 c2 : Nat) : List Char :=
  match color_to_face c1, color_to_face c2 with
  | some f1, some f2 =>
    if f1 == 'F' && f2 == 'R' then ['F', 'R']
    else if f1 == 'R' && f2 == 'B' then ['R', 'B']
    else if f1 == 'B' && f2 == 'L' then ['B', 'L']
    else if f1 == 'L' && f2 == 'F' then ['L', 'F']
    else [f2, f1]
  | _, _ => []

-- set(xs) == set(ys) on face letters
def set_eq_char (xs ys : List Char) : Bool :=
  xs.all (fun x => ys.contains x) && ys.all (fun y => xs.contains y)

def is_corner_in_position (cube : List Nat) (white c1 c2 : Nat)
    (targets : List Char) : Bool :=
  if !(targets.length == 2) then false
  else match find_corner cube white c1 c2 with
    | none => false
    | some (f1, _, _, f2, _, _, f3, _, _) =>
      if !(f1 == 'D' || f2 == 'D' || f3 == 'D') then false
      else set_eq_char ([f1, f2, f3].filter (fun f => !(f == 'D'))) targets

-- the bounded D-alignment loop of _handle_corner_on_d_face
def corner_align_loop (white c1 c2 : Nat) (targets : List Char) :
    Nat → SState → SState
  | 0, st => st
  | k+1, st =>
    match find_corner st.cube white c1 c2 with
    | none => st
    | some (f1, _, _, f2, _, _, f3, _, _) =>
      if set_eq_char ([f1, f2, f3].filter (fun f => !(f == 'D'))) targets then st
      else corner_align_loop white c1 c2 targets k (doMove st "D")

def handle_corner_on_d_face (white c1 c2 : Nat) (targets : List Char)
    (st : SState) : SState :=
  let st := corner_align_loop white c1 c2 targets 4 st
  let mvs :=
    if targets == ['F', 'R'] then ["R" ++ primeStr, "D" ++ primeStr, "R", "D"]
    else if targets == ['R', 'B'] then ["B" ++ primeStr, "D" ++ primeStr, "B", "D"]
    else if targets == ['B', 'L'] then ["L" ++ primeStr, "D" ++ primeStr, "L", "D"]
    else if targets == ['L', 'F'] then ["F" ++ primeStr, "D" ++ primeStr, "F", "D"]
    else ["R" ++ primeStr, "D" ++ primeStr, "R", "D"]
  doMoves st mvs

def handle_corner_on_u_face (white c1 c2 : Nat) (targets : List Char)
    (st : SState) : SState :=
  let mvs :=
    if targets == ['F', 'R'] then ["R" ++ primeStr, "D" ++ primeStr, "R"]
    else if targets == ['R', 'B'] then ["B" ++ primeStr, "D" ++ primeStr, "B"]
    else if targets == ['B', 'L'] then ["L" ++ primeStr, "D" ++ primeStr, "L"]
    else if targets == ['L', 'F'] then ["F" ++ primeStr, "D" ++ primeStr, "F"]
    else ["R" ++ primeStr, "D" ++ primeStr, "R"]
  handle_corner_on_d_face white c1 c2 targets (doMoves st mvs)

def position_white_corner_safely (white c1 c2 : Nat) (st : SState) : SState :=
  match find_corner st.cube white c1 c2 with
  | none => st
  | some (f1, _, _, f2, _, _, f3, _, _) =>
    let targets := get_target_faces_for_corner c1 c2
    if is_corner_in_position st.cube white c1 c2 targets then st
    else if f1 == 'D' || f2 == 'D' || f3 == 'D' then
      handle_corner_on_d_face white c1 c2 targets st
    else if f1 == 'U' || f2 == 'U' || f3 == 'U' then
      handle_corner_on_u_face white c1 c2 targets st
    else st

def solve_first_layer (st : SState) : SState :=
  [(0,4,3), (0,3,5), (0,5,2), (0,2,4)].foldl
    (fun st t => position_white_corner_safely t.1 t.2.1 t.2.2 st) st

/- Step 3: the second-layer edges. -/

def is_middle_edge_correct (cube : List Nat) (c1 c2 : Nat) (t1 t2 : Char) : Bool :=
  match find_edge cube c1 c2 with
  | none => false
  | some (f1, r1, _, f2, r2, _) =>
    ((f1 == t1 && f2 == t2) || (f1 == t2 && f2 == t1)) && (r1 == 1 || r2 == 1)

-- the bounded U-alignment loop of _handle_edge_on_u_for_middle; the second
-- component is the moves variable, set only by the two break branches
def edge_u_middle_loop (c1 c2 : Nat) (t1 t2 : Char) :
    Nat → SState → SState × Option (List String)
  | 0, st => (st, none)
  | k+1, st =>
    match find_edge st.cube c1 c2 with
    | none => (st, none)
    | some (f1, _, _, f2, _, _) =>
      let non_u := if !(f1 == 'U') then f1 else f2
      if non_u == t1 then
        (st, some ["U" ++ primeStr, "L" ++ primeStr, "U", "L", "U", "F",
                   "U" ++ primeStr, "F" ++ primeStr])
      else if non_u == t2 then
        (st, some ["U", "R", "U" ++ primeStr, "R" ++ primeStr, "U" ++ primeStr,
                   "F" ++ primeStr, "U", "F"])
      else edge_u_middle_loop c1 c2 t1 t2 k (doMove st "U")

def handle_edge_on_u_for_middle (c1 c2 : Nat) (t1 t2 : Char) (st : SState) : SState :=
  let r := edge_u_middle_loop c1 c2 t1 t2 4 st
  match r.2 with
  | some mvs => doMoves r.1 mvs
  | none => r.1

def handle_misplaced_middle_edge (c1 c2 : Nat) (t1 t2 : Char) (st : SState) : SState :=
  let mvs :=
    if t1 == 'F' && t2 == 'R' then
      ["U", "R", "U" ++ primeStr, "R" ++ primeStr, "U" ++ primeStr,
       "F" ++ primeStr, "U", "F"]
    else if t1 == 'R' && t2 == 'B' then
      ["U", "B", "U" ++ primeStr, "B" ++ primeStr, "U" ++ primeStr,
       "R" ++ primeStr, "U", "R"]
    else if t1 == 'B' && t2 == 'L' then
      ["U", "L", "U" ++ primeStr, "L" ++ primeStr, "U" ++ primeStr,
       "B" ++ primeStr, "U", "B"]
    else if t1 == 'L' && t2 == 'F' then
      ["U", "F", "U" ++ primeStr, "F" ++ primeStr, "U" ++ primeStr,
       "L" ++ primeStr, "U", "L"]
    else
      ["U", "R", "U" ++ primeStr, "R" ++ primeStr, "U" ++ primeStr,
       "F" ++ primeStr, "U", "F"]
  handle_edge_on_u_for_middle c1 c2 t1 t2 (doMoves st mvs)

def position_middle_edge_safely (c1 c2 : Nat) (t1 t2 : Char) (st : SState) : SState :=
  match find_edge st.cube c1 c2 with
  | none => st
  | some (f1, _, _, f2, _, _) =>
    if is_middle_edge_correct st.cube c1 c2 t1 t2 then st
    else if f1 == 'U' || f2 == 'U' then handle_edge_on_u_for_middle c1 c2 t1 t2 st
    else handle_misplaced_middle_edge c1 c2 t1 t2 st

def solve_second_layer (st : SState) : SState :=
  let st := position_middle_edge_safely 4 3 'F' 'R' st
  let st := position_middle_edge_safely 3 5 'R' 'B' st
  let st := position_middle_edge_safely 5 2 'B' 'L' st
  position_middle_edge_safely 2 4 'L' 'F' st

/- Step 4: the yellow cross. -/

def yellow_positions : List (Nat × Nat) := [(0,1), (1,0), (1,2), (2,1)]

def count_yellow (cube : List Nat) : Nat :=
  (yellow_positions.filter (fun p => get_sticker cube 'U' p.1 p.2 == 1)).length

def fru_alg : List String :=
  ["F", "R", "U", "R" ++ primeStr, "U" ++ primeStr, "F" ++ primeStr]

-- the defensive 3-round repetition of the point case, recounting after each
-- round and stopping early at two or more oriented edges
def point_loop : Nat → SState → SState × Nat
  | 0, st => (st, 0)
  | 1, st =>
    let st := doMoves st fru_alg
    (st, count_yellow st.cube)
  | k+2, st =>
    let st := doMoves st fru_alg
    let c := count_yellow st.cube
    if c ≥ 2 then (st, c) else point_loop (k+1) st

def solve_yellow_cross (st : SState) : SState :=
  let yc := count_yellow st.cube
  let p := if yc == 0 then point_loop 3 st else (st, yc)
  let st := p.1
  let yc := p.2
  if yc == 2 then
    let ep := yellow_positions.map (fun q => get_sticker st.cube 'U' q.1 q.2 == 1)
    let st := if ep == [false, true, false, true] then doMove st "U" else st
    doMoves st fru_alg
  else st

/- Step 5: orientation of the yellow corners. -/

def corner_positions_u : List (Nat × Nat) := [(0,0), (0,2), (2,0), (2,2)]

def count_yellow_corners (cube : List Nat) : Nat :=
  (corner_positions_u.filter (fun p => get_sticker cube 'U' p.1 p.2 == 1)).length

def orient_alg : List String :=
  ["R", "U", "R" ++ primeStr, "U", "R", "U2", "R" ++ primeStr]

-- the unguarded inner while; it is entered only when some top corner is not
-- yellow and a U turn cycles the four top corner stickers, so it always
-- exits within four checks; exhausting the fuel models the impossible
-- divergence
def orient_u_loop : Nat → SState → Except PyErr SState
  | 0, _ => Except.error PyErr.recLimit
  | k+1, st =>
    if get_sticker st.cube 'U' 2 2 == 1 then orient_u_loop k (doMove st "U")
    else Except.ok st

-- the outer for-loop over the global budget; running out of rounds only
-- prints a warning (the for-else branch) and is not an error
def orient_loop : Nat → SState → Except PyErr SState
  | 0, st => Except.ok st
  | k+1, st =>
    if count_yellow_corners st.cube == 4 then Except.ok st
    else do
      let st ← orient_u_loop 4 st
      orient_loop k (doMoves st orient_alg)

def orient_yellow_corners (st : SState) : Except PyErr SState :=
  orient_loop 50 st

/- Step 6: permutation of the yellow corners. -/

def permute_align_loop : Nat → SState → SState
  | 0, st => st
  | k+1, st =>
    if get_sticker st.cube 'F' 0 2 == 4 && get_sticker st.cube 'R' 0 0 == 3 &&
       get_sticker st.cube 'U' 2 2 == 1 then st
    else permute_align_loop k (doMove st "U")

def permute_corner_alg : List String :=
  ["R" ++ primeStr, "F", "R" ++ primeStr, "B2", "R", "F" ++ primeStr,
   "R" ++ primeStr, "B2", "R2"]

-- _permute_yellow_corners: after the alignment loop and the 9-move
-- algorithm, the adjustment loop calls the builtin all with three
-- positional arguments, which raises TypeError on its first iteration
def permute_yellow_corners (st : SState) : Except PyErr SState :=
  let st1 := permute_align_loop 4 st
  let _st2 := doMoves st1 permute_corner_alg
  Except.error PyErr.typeErr

/- Step 7: permutation of the yellow edges. -/

-- the measuring loop: count the orientations whose front edge shows green,
-- turning U after each check
def count_correct_loop : Nat → SState → Nat → SState × Nat
  | 0, st, acc => (st, acc)
  | k+1, st, acc =>
    let acc := if get_sticker st.cube 'F' 0 1 == 4 then acc + 1 else acc
    count_correct_loop k (doMove st "U") acc

-- the unguarded while of the one-correct case; entered only when exactly one
-- orientation shows green in front, so it exits within four checks
def edge_align_loop : Nat → SState → Except PyErr SState
  | 0, _ => Except.error PyErr.recLimit
  | k+1, st =>
    if !(get_sticker st.cube 'F' 0 1 == 4) then edge_align_loop k (doMove st "U")
    else Except.ok st

def permute_yellow_edges (st : SState) : Except PyErr SState :=
  let p := count_correct_loop 4 st 0
  let st := doMoves p.1 ["U" ++ primeStr, "U" ++ primeStr, "U" ++ primeStr, "U" ++ primeStr]
  let cc := p.2
  if cc == 0 then
    Except.ok (doMoves st ["R2", "L2", "U", "R2", "L2", "U2", "R2", "L2", "U", "R2", "L2"])
  else if cc == 1 then do
    let st ← edge_align_loop 4 st
    Except.ok (doMoves st ["R", "U" ++ primeStr, "R", "U", "R", "U", "R",
                           "U" ++ primeStr, "R" ++ primeStr, "U" ++ primeStr, "R2"])
  else if cc == 4 then Except.ok st
  else Except.error PyErr.nameErr

/- LayerByLayerSolver.solve: the seven stages run in order on a working copy
   of the callers cube; any raised exception is caught and the empty
   sequence returned; otherwise the simplified log is returned.  The
   _verify_ steps only log diagnostics and change neither the cube nor the
   solution, so they are not modelled. -/

def run_stages (cube : List Nat) : Except PyErr SState := do
  let st ← solve_white_cross { cube := cube, sol := [] }
  let st := solve_first_layer st
  let st := solve_second_layer st
  let st := solve_yellow_cross st
  let st ← orient_yellow_corners st
  let st ← permute_yellow_corners st
  permute_yellow_edges st

def solve (cube : List Nat) : List String :=
  match run_stages cube with
  | Except.ok st => simplify_moves st.sol
  | Except.error _ => []

-- solve together with the callers sticker array as it stands after the
-- call: the pipeline works on the copy working_cube, never on the argument
def solve_run (cube : List Nat) : List String × List Nat :=
  let working := cube
  (match run_stages working with
   | Except.ok st => simplify_moves st.sol
   | Except.error _ => [], cube)

-- the 18 permutation tables written out as literals; proved equal to
-- MOVE_TABLES below, so that computations can run on literal lists
def TABLE_LIT : List (String × List Nat) := [
  ("U", [6, 3, 0, 7, 4, 1, 8, 5, 2, 9, 10, 11, 12, 13, 14, 15, 16, 17, 36, 37, 38, 21, 22, 23, 24, 25, 26, 45, 46, 47, 30, 31, 32, 33, 34, 35, 27, 28, 29, 39, 40, 41, 42, 43, 44, 18, 19, 20, 48, 49, 50, 51, 52, 53]),
  ("U\x27", [2, 5, 8, 1, 4, 7, 0, 3, 6, 9, 10, 11, 12, 13, 14, 15, 16, 17, 45, 46, 47, 21, 22, 23, 24, 25, 26, 36, 37, 38, 30, 31, 32, 33, 34, 35, 18, 19, 20, 39, 40, 41, 42, 43, 44, 27, 28, 29, 48, 49, 50, 51, 52, 53]),
  ("U2", [8, 7, 6, 5, 4, 3, 2, 1, 0, 9, 10, 11, 12, 13, 14, 15, 16, 17, 27, 28, 29, 21, 22, 23, 24, 25, 26, 18, 19, 20, 30, 31, 32, 33, 34, 35, 45, 46, 47, 39, 40, 41, 42, 43, 44, 36, 37, 38, 48, 49, 50, 51, 52, 53]),
  ("D", [0, 1, 2, 3, 4, 5, 6, 7, 8, 15, 12, 9, 16, 13, 10, 17, 14, 11, 18, 19, 20, 21, 22, 23, 51, 52, 53, 27, 28, 29, 30, 31, 32, 42, 43, 44, 36, 37, 38, 39, 40, 41, 24, 25, 26, 45, 46, 47, 48, 49, 50, 33, 34, 35]),
  ("D\x27", [0, 1, 2, 3, 4, 5, 6, 7, 8, 11, 14, 17, 10, 13, 16, 9, 12, 15, 18, 19, 20, 21, 22, 23, 42, 43, 44, 27, 28, 29, 30, 31, 32, 51, 52, 53, 36, 37, 38, 39, 40, 41, 33, 34, 35, 45, 46, 47, 48, 49, 50, 24, 25, 26]),
  ("D2", [0, 1, 2, 3, 4, 5, 6, 7, 8, 17, 16, 15, 14, 13, 12, 11, 10, 9, 18, 19, 20, 21, 22, 23, 33, 34, 35, 27, 28, 29, 30, 31, 32, 24, 25, 26, 36, 37, 38, 39, 40, 41, 51, 52, 53, 45, 46, 47, 48, 49, 50, 42, 43, 44]),
  ("L", [36, 1, 2, 39, 4, 5, 42, 7, 8, 45, 10, 11, 48, 13, 14, 51, 16, 17, 24, 21, 18, 25, 22, 19, 26, 23, 20, 27, 28, 29, 30, 31, 32, 33, 34, 35, 9, 37, 38, 12, 40, 41, 15, 43, 44, 0, 46, 47, 3, 49, 50, 6, 52, 53]),
  ("L\x27", [45, 1, 2, 48, 4, 5, 51, 7, 8, 36, 10, 11, 39, 13, 14, 42, 16, 17, 20, 23, 26, 19, 22, 25, 18, 21, 24, 27, 28, 29, 30, 31, 32, 33, 34, 35, 0, 37, 38, 3, 40, 41, 6, 43, 44, 9, 46, 47, 12, 49, 50, 15, 52, 53]),
  ("L2", [9, 1, 2, 12, 4, 5, 15, 7, 8, 0, 10, 11, 3, 13, 14, 6, 16, 17, 26, 25, 24, 23, 22, 21, 20, 19, 18, 27, 28, 29, 30, 31, 32, 33, 34, 35, 45, 37, 38, 48, 40, 41, 51, 43, 44, 36, 46, 47, 39, 49, 50, 42, 52, 53]),
  ("R", [0, 1, 47, 3, 4, 50, 6, 7, 53, 9, 10, 38, 12, 13, 41, 15, 16, 44, 18, 19, 20, 21, 22, 23, 24, 25, 26, 33, 30, 27, 34, 31, 28, 35, 32, 29, 36, 37, 2, 39, 40, 5, 42, 43, 8, 45, 46, 11, 48, 49, 14, 51, 52, 17]),
  ("R\x27", [0, 1, 38, 3, 4, 41, 6, 7, 44, 9, 10, 47, 12, 13, 50, 15, 16, 53, 18, 19, 20, 21, 22, 23, 24, 25, 26, 29, 32, 35, 28, 31, 34, 27, 30, 33, 36, 37, 11, 39, 40, 14, 42, 43, 17, 45, 46, 2, 48, 49, 5, 51, 52, 8]),
  ("R2", [0, 1, 11, 3, 4, 14, 6, 7, 17, 9, 10, 2, 12, 13, 5, 15, 16, 8, 18, 19, 20, 21, 22, 23, 24, 25, 26, 35, 34, 33, 32, 31, 30, 29, 28, 27, 36, 37, 47, 39, 40, 50, 42, 43, 53, 45, 46, 38, 48, 49, 41, 51, 52, 44]),
  ("F", [0, 1, 2, 3, 4, 5, 18, 21, 24, 9, 10, 11, 12, 13, 14, 27, 30, 33, 15, 19, 20, 16, 22, 23, 17, 25, 26, 6, 28, 29, 7, 31, 32, 8, 34, 35, 42, 39, 36, 43, 40, 37, 44, 41, 38, 45, 46, 47, 48, 49, 50, 51, 52, 53]),
  ("F\x27", [0, 1, 2, 3, 4, 5, 27, 30, 33, 9, 10, 11, 12, 13, 14, 18, 21, 24, 6, 19, 20, 7, 22, 23, 8, 25, 26, 15, 28, 29, 16, 31, 32, 17, 34, 35, 38, 41, 44, 37, 40, 43, 36, 39, 42, 45, 46, 47, 48, 49, 50, 51, 52, 53]),
  ("F2", [0, 1, 2, 3, 4, 5, 15, 16, 17, 9, 10, 11, 12, 13, 14, 6, 7, 8, 27, 19, 20, 30, 22, 23, 33, 25, 26, 18, 28, 29, 21, 31, 32, 24, 34, 35, 44, 43, 42, 41, 40, 39, 38, 37, 36, 45, 46, 47, 48, 49, 50, 51, 52, 53]),
  ("B", [29, 32, 35, 3, 4, 5, 6, 7, 8, 20, 23, 26, 12, 13, 14, 15, 16, 17, 18, 19, 0, 21, 22, 1, 24, 25, 2, 27, 28, 9, 30, 31, 10, 33, 34, 11, 36, 37, 38, 39, 40, 41, 42, 43, 44, 51, 48, 45, 52, 49, 46, 53, 50, 47]),
  ("B\x27", [20, 23, 26, 3, 4, 5, 6, 7, 8, 29, 32, 35, 12, 13, 14, 15, 16, 17, 18, 19, 9, 21, 22, 10, 24, 25, 11, 27, 28, 0, 30, 31, 1, 33, 34, 2, 36, 37, 38, 39, 40, 41, 42, 43, 44, 47, 50, 53, 46, 49, 52, 45, 48, 51]),
  ("B2", [9, 10, 11, 3, 4, 5, 6, 7, 8, 0, 1, 2, 12, 13, 14, 15, 16, 17, 18, 19, 29, 21, 22, 32, 24, 25, 35, 27, 28, 20, 30, 31, 23, 33, 34, 26, 36, 37, 38, 39, 40, 41, 42, 43, 44, 53, 52, 51, 50, 49, 48, 47, 46, 45])]

/- Helper lemmas. -/

theorem lookup_mem {α β : Type} [BEq α] [LawfulBEq α] :
    ∀ {l : List (α × β)} {k : α} {v : β}, l.lookup k = some v → (k, v) ∈ l := by
  intro l
  induction l with
  | nil => intro k v h; simp [List.lookup] at h
  | cons hd t ih =>
    intro k v h
    obtain ⟨k1, v1⟩ := hd
    simp only [List.lookup] at h
    cases hk : (k == k1) with
    | true =>
      rw [hk] at h
      simp only [Option.some.injEq] at h
      have hkk : k = k1 := eq_of_beq hk
      subst hkk; subst h
      exact List.mem_cons_self ..
    | false =>
      rw [hk] at h
      exact List.mem_cons_of_mem _ (ih h)

theorem apply_perm_length (p s : List Nat) : (apply_perm p s).length = p.length := by
  simp [apply_perm]

theorem apply_perm_comp (p q s : List Nat) (hp : ∀ i ∈ p, i < q.length) :
    apply_perm p (apply_perm q s) = apply_perm (compPerm p q) s := by
  unfold apply_perm compPerm
  rw [List.map_map]
  refine List.map_congr_left ?_
  intro i hi
  have h : i < q.length := hp i hi
  have hmap : i < (q.map fun j => s.getD j 0).length := by simpa using h
  simp only [Function.comp_apply]
  rw [List.getD_eq_getElem _ _ hmap, List.getD_eq_getElem _ _ h]
  simp

theorem apply_perm_range (s : List Nat) (h : s.length = 54) :
    apply_perm (List.range 54) s = s := by
  unfold apply_perm
  refine List.ext_getElem (by simp [h]) ?_
  intro i h1 h2
  simp only [List.getElem_map, List.getElem_range]
  rw [List.getD_eq_getElem _ _ h2]

theorem getD_set_self (l : List Nat) (i a : Nat) (h : i < l.length) :
    (l.set i a).getD i 0 = a := by
  rw [List.getD_eq_getElem _ _ (by simpa using h)]
  exact List.getElem_set_self _

theorem getD_set_ne (l : List Nat) (i j a : Nat) (hne : i ≠ j) :
    (l.set i a).getD j 0 = l.getD j 0 := by
  by_cases hj : j < l.length
  · rw [List.getD_eq_getElem _ _ (by simpa using hj), List.getD_eq_getElem _ _ hj]
    exact List.getElem_set_ne hne _
  · have h1 : l.length ≤ j := Nat.le_of_not_lt hj
    rw [List.getD_eq_default _ _ (by simpa using h1), List.getD_eq_default _ _ h1]

/- Facts about the move tables, checked by computation. -/

theorem tables_wf : ∀ pr ∈ MOVE_TABLES, pr.2.length = 54 ∧ ∀ i ∈ pr.2, i < 54 := by
  decide

theorem tables_order4 : ∀ pr ∈ MOVE_TABLES,
    compPerm pr.2 (compPerm pr.2 (compPerm pr.2 pr.2)) = List.range 54 := by decide

theorem tables_perm : ∀ pr ∈ MOVE_TABLES, pr.2.Perm (List.range 54) := by decide

theorem all_moves_lookup : ∀ m ∈ all_moves, (MOVE_TABLES.lookup m).isSome = true := by
  decide

theorem table_keys_ne : ∀ pr ∈ MOVE_TABLES, (pr.1 == "") = false := by decide

theorem apply_move_valid (s : List Nat) (m : String) (p : List Nat)
    (h : MOVE_TABLES.lookup m = some p) :
    apply_move s m = some (apply_perm p s) := by
  simp [apply_move, h]

theorem table_entry_mem (i : Nat) (h : i < MOVE_TABLES.length) :
    MOVE_TABLES.getD i ("U", List.range 54) ∈ MOVE_TABLES := by
  rw [List.getD_eq_getElem _ _ h]
  exact List.getElem_mem h

/- The solver pipeline always aborts: step 6 raises TypeError. -/

theorem permute_yellow_corners_err (st : SState) :
    permute_yellow_corners st = Except.error PyErr.typeErr := rfl

theorem except_bind_ok {α β : Type} (a : α) (f : α → Except PyErr β) :
    (Except.ok a >>= f) = f a := rfl

theorem except_bind_err {α β : Type} (e : PyErr) (f : α → Except PyErr β) :
    (Except.error e >>= f) = Except.error e := rfl

theorem run_stages_err (c : List Nat) : ∃ e, run_stages c = Except.error e := by
  unfold run_stages
  cases h1 : solve_white_cross { cube := c, sol := [] } with
  | error e => exact ⟨e, except_bind_err e _⟩
  | ok st1 =>
    simp only [except_bind_ok]
    cases h2 : orient_yellow_corners
        (solve_yellow_cross (solve_second_layer (solve_first_layer st1))) with
    | error e => exact ⟨e, except_bind_err e _⟩
    | ok st2 =>
      simp only [except_bind_ok, permute_yellow_corners_err, except_bind_err]
      exact ⟨PyErr.typeErr, rfl⟩

theorem solve_nil (c : List Nat) : solve c = [] := by
  obtain ⟨e, he⟩ := run_stages_err c
  unfold solve
  rw [he]

/- Scramble lemmas. -/

theorem scramble_go_length (rng : Nat → Nat) :
    ∀ (k idx : Nat) (last : String) (s : List Nat),
      ((scramble_go rng k idx last s).2).length ≤ k := by
  intro k
  induction k with
  | zero => intro idx last s; simp [scramble_go]
  | succ k ih =>
    intro idx last s
    simp only [scramble_go]
    split
    · exact (ih (idx+1) last s).trans (Nat.le_succ k)
    · simpa using Nat.succ_le_succ (ih (idx+1) _ _)

theorem scramble_go_chain (rng : Nat → Nat) :
    ∀ (k idx : Nat) (last : String) (s : List Nat),
      no_cancel_chain ((scramble_go rng k idx last s).2) = true ∧
      ∀ h, ((scramble_go rng k idx last s).2).head? = some h →
        (!(last == "") && cancels last h) = false := by
  intro k
  induction k with
  | zero =>
    intro idx last s
    refine ⟨rfl, ?_⟩
    intro h hh
    simp [scramble_go] at hh
  | succ k ih =>
    intro idx last s
    simp only [scramble_go]
    split
    · exact ih (idx+1) last s
    · rename_i hrej
      have hkey : ((MOVE_TABLES.getD (rng idx % MOVE_TABLES.length)
          ("U", List.range 54)).1 == "") = false :=
        table_keys_ne _ (table_entry_mem _ (Nat.mod_lt _ (by decide)))
      obtain ⟨hchain, hhead⟩ :=
        ih (idx+1) (MOVE_TABLES.getD (rng idx % MOVE_TABLES.length) ("U", List.range 54)).1
          (apply_perm (MOVE_TABLES.getD (rng idx % MOVE_TABLES.length) ("U", List.range 54)).2 s)
      constructor
      · cases hrest : (scramble_go rng k (idx+1)
            (MOVE_TABLES.getD (rng idx % MOVE_TABLES.length) ("U", List.range 54)).1
            (apply_perm (MOVE_TABLES.getD (rng idx % MOVE_TABLES.length) ("U", List.range 54)).2 s)).2 with
        | nil => rfl
        | cons b t =>
          have hb := hhead b (by rw [hrest]; rfl)
          rw [hkey] at hb
          simp only [Bool.not_false, Bool.true_and] at hb
          rw [hrest] at hchain
          simp only [no_cancel_chain, hb, hchain, Bool.not_false, Bool.true_and]
      · intro h hh
        simp only [List.head?_cons, Option.some.injEq] at hh
        rw [← hh]
        exact Bool.eq_false_iff.mpr (fun hc => by rw [hc] at hrej; exact hrej rfl)

/- The move tables bridge facts used by the order-4 theorem. -/

theorem lookup_facts (m : String) (hm : m ∈ all_moves) :
    ∃ p, MOVE_TABLES.lookup m = some p ∧ (m, p) ∈ MOVE_TABLES := by
  obtain ⟨p, hp⟩ := Option.isSome_iff_exists.mp (all_moves_lookup m hm)
  exact ⟨p, hp, lookup_mem hp⟩

/-- C1: a freshly reset state (every facelet set to its face color) satisfies
is_solved, and solve on it returns the empty move sequence (step 6 of the
pipeline always raises, so solve always returns the empty sequence). -/
theorem reset_solved_and_solve_empty :
    is_solved reset_stickers = true ∧ solve reset_stickers = [] :=
  ⟨by decide, solve_nil reset_stickers⟩

/-- C3: each of the 18 named moves, applied four times in a row to any
54-facelet state, returns the facelet array to its prior value. -/
theorem move_order_four (m : String) (hm : m ∈ all_moves) (s : List Nat)
    (h54 : s.length = 54) : replayMoves s [m, m, m, m] = some s := by
  obtain ⟨p, hp, hmem⟩ := lookup_facts m hm
  obtain ⟨hlen, hbound⟩ := tables_wf (m, p) hmem
  have ho4 := tables_order4 (m, p) hmem
  have ha : ∀ t, apply_move t m = some (apply_perm p t) := fun t =>
    apply_move_valid t m p hp
  have hstep : replayMoves s [m, m, m, m] =
      some (apply_perm p (apply_perm p (apply_perm p (apply_perm p s)))) := by
    simp [replayMoves, List.foldlM, ha]
  rw [hstep]
  have hb1 : ∀ i ∈ p, i < p.length := fun i hi => by
    rw [hlen]; exact hbound i hi
  have hb2 : ∀ i ∈ p, i < (compPerm p p).length := fun i hi => by
    simp only [compPerm, List.length_map, hlen]; exact hbound i hi
  have hb3 : ∀ i ∈ p, i < (compPerm p (compPerm p p)).length := fun i hi => by
    simp only [compPerm, List.length_map, hlen]; exact hbound i hi
  have e1 : apply_perm p (apply_perm p s) = apply_perm (compPerm p p) s :=
    apply_perm_comp p p s hb1
  have e2 : apply_perm p (apply_perm (compPerm p p) s) =
      apply_perm (compPerm p (compPerm p p)) s :=
    apply_perm_comp p (compPerm p p) s hb2
  have e3 : apply_perm p (apply_perm (compPerm p (compPerm p p)) s) =
      apply_perm (compPerm p (compPerm p (compPerm p p))) s :=
    apply_perm_comp p (compPerm p (compPerm p p)) s hb3
  rw [e1, e2, e3, ho4, apply_perm_range s h54]

/-- C3 witness: four clockwise U turns restore the reset state. -/
theorem move_order_four_witness :
    replayMoves reset_stickers ["U", "U", "U", "U"] = some reset_stickers :=
  move_order_four "U" (by decide) reset_stickers (by decide)

/-- C4 counterexample: with the source of candidate indices 0, 1, 2, ...,
scramble(2) draws U and then U-inverse; the second candidate is rejected but
still consumes a loop iteration, so only one move is applied, not two. -/
theorem scramble_count_counterexample :
    ((scramble 2 (fun k => k) reset_stickers).2).length = 1 := by decide

/-- C4 amended: scramble(n) performs exactly n candidate draws and each draw
applies at most one move (a rejected candidate applies none), so the number
of applied moves is at most n, with rejected draws counted against n. -/
theorem scramble_applies_at_most (n : Nat) (rng : Nat → Nat) (s : List Nat) :
    ((scramble n rng s).2).length ≤ n :=
  scramble_go_length rng n 0 "" s

/-- C5: the sequence of moves actually applied by scramble never contains two
consecutive moves on the same face whose combined turn count is a multiple
of four, and scramble(0) leaves the facelet array unchanged. -/
theorem scramble_trace_no_cancel (n : Nat) (rng : Nat → Nat) (s : List Nat) :
    no_cancel_chain ((scramble n rng s).2) = true ∧ (scramble 0 rng s).1 = s :=
  ⟨(scramble_go_chain rng n 0 "" s).1, rfl⟩

/-- C6 counterexample: the move identifier X is not one of the 18 well-formed
moves and its face letter has no base move either, so apply fails with a
lookup error instead of falling back. -/
theorem apply_move_unknown_fails : apply_move reset_stickers "X" = none := by
  decide

/-- C6 amended: for a move identifier whose first character is one of the six
face letters, apply does not fail: an identifier missing from the tables
falls back to the base (no-modifier) move of that face, and a well-formed
move replaces the facelet array by new[i] = old[permutation[i]]; an
identifier whose first character is no face letter makes the final table
lookup fail. -/
theorem apply_move_fallback (s : List Nat) (move : String)
    (hface : face_letters.contains (move.data.headD prime) = true) :
    (apply_move s move).isSome = true ∧
    (MOVE_TABLES.lookup move = none →
      apply_move s move = apply_move s (String.singleton (move.data.headD prime))) ∧
    (∀ p, MOVE_TABLES.lookup move = some p →
      apply_move s move = some (apply_perm p s)) := by
  have hne : move.data.isEmpty = false := by
    cases hd : move.data with
    | nil =>
      rw [hd] at hface
      exact absurd hface (by decide)
    | cons a t => rfl
  cases hlk : MOVE_TABLES.lookup move with
  | some p =>
    have happ := apply_move_valid s move p hlk
    refine ⟨by rw [happ]; rfl, fun hno => Option.noConfusion hno, ?_⟩
    intro q hq
    have hpq : p = q := Option.some.inj hq
    rw [← hpq]
    exact happ
  | none =>
    have hc : (move.data.headD prime) ∈ face_letters := by simpa using hface
    have hsing : (MOVE_TABLES.lookup (String.singleton (move.data.headD prime))).isSome
        = true := by
      have hall : ∀ ch ∈ face_letters,
          (MOVE_TABLES.lookup (String.singleton ch)).isSome = true := by decide
      exact hall _ hc
    have e1 : apply_move s move =
        (MOVE_TABLES.lookup (String.singleton (move.data.headD prime))).map
          (fun p => apply_perm p s) := by
      unfold apply_move
      rw [hlk]
      simp [hne]
    have e2 : apply_move s (String.singleton (move.data.headD prime)) =
        (MOVE_TABLES.lookup (String.singleton (move.data.headD prime))).map
          (fun p => apply_perm p s) := by
      unfold apply_move
      simp only [hsing, if_true]
    refine ⟨?_, fun _ => by rw [e1, e2], ?_⟩
    · rw [e1]
      obtain ⟨p, hp⟩ := Option.isSome_iff_exists.mp hsing
      rw [hp]
      rfl
    · intro q hq
      exact Option.noConfusion hq

/-- C6 witness: R3 is not a well-formed move; apply falls back to the base
move of its face letter R. -/
theorem apply_move_fallback_witness :
    apply_move reset_stickers "R3" =
      apply_move reset_stickers (String.singleton (("R3" : String).data.headD prime)) :=
  (apply_move_fallback reset_stickers "R3" (by decide)).2.1 (by decide)

/- is_solved characterization helpers. -/

theorem is_solved_iff (s : List Nat) :
    is_solved s = true ↔
      ∀ f < 6, ∀ i < 9, s.getD (f * 9 + i) 0 = s.getD (f * 9 + 4) 0 := by
  simp only [is_solved, List.all_eq_true, List.mem_range, beq_iff_eq]

theorem reset_getD : ∀ j < 54, reset_stickers.getD j 0 = j / 9 := by
  have h : ∀ j ∈ List.range 54, reset_stickers.getD j 0 = j / 9 := by decide
  intro j hj
  exact h j (List.mem_range.mpr hj)

theorem reset_length : reset_stickers.length = 54 := by decide

/-- C7: is_solved holds exactly when each face is uniformly its center color,
and altering any single facelet of the uniform reset state away from its
face color falsifies is_solved. -/
theorem is_solved_characterization :
    (∀ s : List Nat, s.length = 54 →
      (is_solved s = true ↔
        ∀ f < 6, ∀ i < 9, s.getD (f * 9 + i) 0 = s.getD (f * 9 + 4) 0)) ∧
    (∀ j < 54, ∀ c : Nat, c ≠ reset_stickers.getD j 0 →
      is_solved (reset_stickers.set j c) = false) := by
  refine ⟨fun s _ => is_solved_iff s, ?_⟩
  intro j hj c hc
  rw [reset_getD j hj] at hc
  cases hb : is_solved (reset_stickers.set j c) with
  | false => rfl
  | true =>
    exfalso
    have hs := (is_solved_iff _).mp hb
    have hfj : j / 9 < 6 := by omega
    by_cases h4 : j % 9 = 4
    · have h0ne : j ≠ j / 9 * 9 + 0 := by omega
      have e1 : (reset_stickers.set j c).getD (j / 9 * 9 + 0) 0 =
          reset_stickers.getD (j / 9 * 9 + 0) 0 := getD_set_ne _ _ _ _ h0ne
      have e2 : (reset_stickers.set j c).getD (j / 9 * 9 + 4) 0 = c := by
        rw [show j / 9 * 9 + 4 = j by omega]
        exact getD_set_self _ _ _ (by rw [reset_length]; exact hj)
      have := hs (j / 9) hfj 0 (by norm_num)
      rw [e1, e2, reset_getD _ (by omega)] at this
      omega
    · have h4ne : j ≠ j / 9 * 9 + 4 := by omega
      have e1 : (reset_stickers.set j c).getD (j / 9 * 9 + j % 9) 0 = c := by
        rw [show j / 9 * 9 + j % 9 = j by omega]
        exact getD_set_self _ _ _ (by rw [reset_length]; exact hj)
      have e2 : (reset_stickers.set j c).getD (j / 9 * 9 + 4) 0 =
          reset_stickers.getD (j / 9 * 9 + 4) 0 := getD_set_ne _ _ _ _ h4ne
      have := hs (j / 9) hfj (j % 9) (by omega)
      rw [e1, e2, reset_getD _ (by omega)] at this
      omega

/-- C7 witness: repainting facelet 0 of the reset state with color 1
falsifies is_solved. -/
theorem is_solved_characterization_witness :
    is_solved (reset_stickers.set 0 1) = false :=
  is_solved_characterization.2 0 (by decide) 1 (by decide)

/-- C8: solve works on a private copy of the callers state; the callers
facelet array after the call equals the array before it, and the first
component agrees with solve. -/
theorem solve_frames_caller (c : List Nat) :
    (solve_run c).2 = c ∧ (solve_run c).1 = solve c :=
  ⟨rfl, rfl⟩

/-- C10: every move table is a bijection of the 54 facelet indices, so
applying any move to a 54-facelet state keeps the length 54 and preserves
the number of facelets of every color. -/
theorem move_tables_bijection : ∀ pr ∈ MOVE_TABLES,
    pr.2.Perm (List.range 54) ∧
    ∀ s : List Nat, s.length = 54 →
      (apply_perm pr.2 s).length = 54 ∧
      ∀ col : Nat, (apply_perm pr.2 s).count col = s.count col := by
  intro pr hpr
  have hp := tables_perm pr hpr
  refine ⟨hp, ?_⟩
  intro s hs
  have hperm : (apply_perm pr.2 s).Perm s := by
    have hmap := hp.map (fun i => s.getD i 0)
    have hr : (List.range 54).map (fun i => s.getD i 0) = s := apply_perm_range s hs
    rw [hr] at hmap
    exact hmap
  exact ⟨by rw [hperm.length_eq, hs], fun col => hperm.count_eq col⟩

/-- C10 witness: the first table (the U move) is a bijection of the 54
indices. -/
theorem move_tables_bijection_witness :
    ((MOVE_TABLES.getD 0 ("U", List.range 54)).2).Perm (List.range 54) :=
  (move_tables_bijection _ (by decide)).1

/- Simplifier lemmas. -/

theorem data_app_prime (c : Char) : (String.singleton c ++ primeStr).data = [c, prime] :=
  rfl

theorem data_app_two (c : Char) : (String.singleton c ++ "2").data = [c, '2'] := rfl

theorem normalize_sing_prime (c : Char) :
    normalize_move (String.singleton c ++ primeStr) = (String.singleton c, 3) := by
  unfold normalize_move
  rw [data_app_prime]
  simp [List.getLast?]

theorem normalize_sing_two (c : Char) :
    normalize_move (String.singleton c ++ "2") = (String.singleton c, 2) := by
  unfold normalize_move
  rw [data_app_two]
  simp [List.getLast?]
  decide

theorem ndir_cases (m : String) : ndir m = 1 ∨ ndir m = 2 ∨ ndir m = 3 := by
  unfold ndir normalize_move
  split_ifs <;> simp

theorem normalize_rr (m : String) : normalize_move (rr m) = normalize_move m := by
  by_cases h1 : (m.data.length == 1) = true
  · have hn : normalize_move m = (m, 1) := by unfold normalize_move; rw [if_pos h1]
    have hrr : rr m = m := by unfold rr nface ndir; rw [hn]; simp [rmove]
    rw [hrr]
  · by_cases h2 : (m.data.getLast? == some prime) = true
    · have hn : normalize_move m = (String.singleton (m.data.headD prime), 3) := by
        unfold normalize_move; rw [if_neg h1, if_pos h2]
      have hrr : rr m = String.singleton (m.data.headD prime) ++ primeStr := by
        unfold rr nface ndir; rw [hn]; simp [rmove]
      rw [hrr, normalize_sing_prime, hn]
    · by_cases h3 : (m.data.getLast? == some '2') = true
      · have hn : normalize_move m = (String.singleton (m.data.headD prime), 2) := by
          unfold normalize_move; rw [if_neg h1, if_neg h2, if_pos h3]
        have hrr : rr m = String.singleton (m.data.headD prime) ++ "2" := by
          unfold rr nface ndir; rw [hn]; simp [rmove]
        rw [hrr, normalize_sing_two, hn]
      · have hn : normalize_move m = (m, 1) := by
          unfold normalize_move; rw [if_neg h1, if_neg h2, if_neg h3]
        have hrr : rr m = m := by unfold rr nface ndir; rw [hn]; simp [rmove]
        rw [hrr]

theorem nface_rr (m : String) : nface (rr m) = nface m := by
  unfold nface
  rw [normalize_rr]

theorem ndir_rr (m : String) : ndir (rr m) = ndir m := by
  unfold ndir
  rw [normalize_rr]

theorem rr_rr (m : String) : rr (rr m) = rr m :=
  calc rr (rr m) = rmove (nface (rr m)) (ndir (rr m)) := rfl
    _ = rmove (nface m) (ndir m) := by rw [nface_rr, ndir_rr]
    _ = rr m := rfl

theorem render_eq_rmove (f : String) (d : Nat) (h : d = 1 ∨ d = 2 ∨ d = 3) :
    render_move f d = [rmove f d] := by
  rcases h with h | h | h <;> subst h <;> rfl

theorem render_len (f : String) (d : Nat) : (render_move f d).length ≤ 1 := by
  unfold render_move
  split_ifs <;> simp

theorem pass_single (m : String) : simplify_pass [m] = [rr m] := by
  show render_move (nface m) (ndir m) = [rr m]
  rw [render_eq_rmove _ _ (ndir_cases m)]
  rfl

theorem pass_cons_merge (m1 m2 : String) (rest : List String)
    (hcond : (nface m1 == nface m2) = true) :
    simplify_pass (m1 :: m2 :: rest) =
      render_move (nface m1) ((ndir m1 + ndir m2) % 4) ++ simplify_pass rest := by
  show (if (nface m1 == nface m2) = true then
      render_move (nface m1) ((ndir m1 + ndir m2) % 4) ++ simplify_pass rest
    else render_move (nface m1) (ndir m1) ++ simplify_pass (m2 :: rest)) = _
  rw [if_pos hcond]

theorem pass_cons_keep (m1 m2 : String) (rest : List String)
    (hcond : ¬(nface m1 == nface m2) = true) :
    simplify_pass (m1 :: m2 :: rest) =
      render_move (nface m1) (ndir m1) ++ simplify_pass (m2 :: rest) := by
  show (if (nface m1 == nface m2) = true then
      render_move (nface m1) ((ndir m1 + ndir m2) % 4) ++ simplify_pass rest
    else render_move (nface m1) (ndir m1) ++ simplify_pass (m2 :: rest)) = _
  rw [if_neg hcond]

theorem pass_len_le : ∀ ms : List String, (simplify_pass ms).length ≤ ms.length := by
  intro ms
  induction ms using simplify_pass.induct with
  | case1 => simp [simplify_pass]
  | case2 m => rw [pass_single]; simp
  | case3 m1 m2 rest n1 n2 hcond ih =>
    rw [pass_cons_merge m1 m2 rest hcond]
    have := render_len (nface m1) ((ndir m1 + ndir m2) % 4)
    simp only [List.length_append, List.length_cons]
    omega
  | case4 m1 m2 rest n1 n2 hcond ih =>
    rw [pass_cons_keep m1 m2 rest hcond, render_eq_rmove _ _ (ndir_cases m1)]
    simp only [List.length_cons] at ih
    simp only [List.length_append, List.length_cons, List.length_nil]
    omega

theorem pass_len_eq : ∀ ms : List String,
    (simplify_pass ms).length = ms.length →
    simplify_pass ms = ms.map rr ∧ no_merge_pair ms = true := by
  intro ms
  induction ms using simplify_pass.induct with
  | case1 => intro _; exact ⟨rfl, rfl⟩
  | case2 m => intro _; rw [pass_single]; exact ⟨rfl, rfl⟩
  | case3 m1 m2 rest n1 n2 hcond ih =>
    intro hlen
    exfalso
    rw [pass_cons_merge m1 m2 rest hcond] at hlen
    have h1 := render_len (nface m1) ((ndir m1 + ndir m2) % 4)
    have h2 := pass_len_le rest
    simp only [List.length_append, List.length_cons] at hlen
    omega
  | case4 m1 m2 rest n1 n2 hcond ih =>
    intro hlen
    rw [pass_cons_keep m1 m2 rest hcond, render_eq_rmove _ _ (ndir_cases m1)] at hlen ⊢
    simp only [List.length_append, List.length_cons, List.length_nil] at hlen
    have htail : (simplify_pass (m2 :: rest)).length = (m2 :: rest).length := by
      simp only [List.length_cons]
      omega
    obtain ⟨hmap, hnmp⟩ := ih htail
    refine ⟨by rw [hmap]; rfl, ?_⟩
    have hf : (nface m1 == nface m2) = false := by
      cases h : (nface m1 == nface m2)
      · rfl
      · exact absurd h hcond
    simp [no_merge_pair, hf, hnmp]

theorem pass_of_nmp : ∀ ms : List String, no_merge_pair ms = true →
    simplify_pass ms = ms.map rr := by
  intro ms
  induction ms using simplify_pass.induct with
  | case1 => intro _; rfl
  | case2 m => intro _; rw [pass_single]; rfl
  | case3 m1 m2 rest n1 n2 hcond ih =>
    intro hnmp
    exfalso
    simp only [no_merge_pair, Bool.and_eq_true, Bool.not_eq_true'] at hnmp
    exact absurd (show (nface m1 == nface m2) = true from hcond)
      (by rw [hnmp.1]; simp)
  | case4 m1 m2 rest n1 n2 hcond ih =>
    intro hnmp
    simp only [no_merge_pair, Bool.and_eq_true] at hnmp
    rw [pass_cons_keep m1 m2 rest hcond, render_eq_rmove _ _ (ndir_cases m1),
      ih hnmp.2]
    rfl

theorem nmp_map_rr : ∀ ms : List String, no_merge_pair (ms.map rr) = no_merge_pair ms := by
  intro ms
  induction ms using no_merge_pair.induct with
  | case1 => rfl
  | case2 m => rfl
  | case3 a b rest ih =>
    simp only [List.map_cons, no_merge_pair, nface_rr] at ih ⊢
    rw [ih]

theorem map_rr_idem (ms : List String) : (ms.map rr).map rr = ms.map rr := by
  rw [List.map_map]
  refine List.map_congr_left ?_
  intro m _
  simp only [Function.comp_apply]
  exact rr_rr m

theorem sfix_spec : ∀ (fuel : Nat) (ms : List String), ms.length ≤ fuel →
    simplify_pass (simplify_fix fuel ms) = simplify_fix fuel ms ∧
    no_merge_pair (simplify_fix fuel ms) = true ∧
    (simplify_fix fuel ms).length ≤ ms.length := by
  intro fuel
  induction fuel with
  | zero =>
    intro ms hms
    have hnil : ms = [] := List.length_eq_zero.mp (Nat.le_zero.mp hms)
    subst hnil
    exact ⟨rfl, rfl, Nat.le_refl 0⟩
  | succ fuel ih =>
    intro ms hms
    by_cases hemp : ms.isEmpty = true
    · have hnil : ms = [] := by
        cases ms
        · rfl
        · simp [List.isEmpty] at hemp
      subst hnil
      exact ⟨rfl, rfl, Nat.le_refl 0⟩
    · have hempf : ms.isEmpty = false := by
        cases h : ms.isEmpty
        · rfl
        · exact absurd h hemp
      have hfix : simplify_fix (fuel+1) ms =
          if (simplify_pass ms).length < ms.length then
            simplify_fix fuel (simplify_pass ms)
          else simplify_pass ms := by
        simp [simplify_fix, hempf]
      by_cases hlt : (simplify_pass ms).length < ms.length
      · rw [hfix, if_pos hlt]
        have ihs := ih (simplify_pass ms) (by omega)
        exact ⟨ihs.1, ihs.2.1, ihs.2.2.trans (Nat.le_of_lt hlt)⟩
      · rw [hfix, if_neg hlt]
        have hle := pass_len_le ms
        have heq : (simplify_pass ms).length = ms.length := by omega
        obtain ⟨hmap, hnmp⟩ := pass_len_eq ms heq
        have hnmp2 : no_merge_pair (simplify_pass ms) = true := by
          rw [hmap, nmp_map_rr]
          exact hnmp
        refine ⟨?_, hnmp2, Nat.le_of_eq heq⟩
        rw [hmap, pass_of_nmp _ (by rw [nmp_map_rr]; exact hnmp)]
        exact map_rr_idem ms

/-- C9: the simplifier is idempotent and runs to a fixed point: simplifying a
second time changes nothing, and the output never contains two adjacent
moves with the same normalized face, so no adjacent pair can still merge. -/
theorem simplify_idempotent_fixed (ms : List String) :
    simplify_moves (simplify_moves ms) = simplify_moves ms ∧
    no_merge_pair (simplify_moves ms) = true := by
  obtain ⟨hfp, hnmp, _⟩ := sfix_spec ms.length ms (Nat.le_refl _)
  refine ⟨?_, hnmp⟩
  show simplify_fix (simplify_fix ms.length ms).length (simplify_fix ms.length ms) =
    simplify_fix ms.length ms
  cases hul : simplify_fix ms.length ms with
  | nil => rfl
  | cons a t =>
    have hpass : simplify_pass (a :: t) = a :: t := by rw [← hul]; exact hfp
    show simplify_fix (t.length + 1) (a :: t) = a :: t
    simp [simplify_fix, hpass]

/- The literal table bridge and facts supporting the net-effect proof. -/

theorem tables_eq : MOVE_TABLES = TABLE_LIT := by decide

theorem all_moves_eq : all_moves = TABLE_LIT.map Prod.fst := by
  unfold all_moves
  rw [tables_eq]

theorem valid_rr : ∀ m ∈ all_moves, rr m = m := by
  rw [all_moves_eq]
  decide

theorem valid_renders : ∀ m ∈ all_moves,
    rmove (nface m) 1 ∈ all_moves ∧ rmove (nface m) 2 ∈ all_moves ∧
    rmove (nface m) 3 ∈ all_moves := by
  rw [all_moves_eq]
  decide

theorem tables_merge : ∀ pr1 ∈ MOVE_TABLES, ∀ pr2 ∈ MOVE_TABLES,
    nface pr1.1 = nface pr2.1 →
    (((ndir pr1.1 + ndir pr2.1) % 4 = 0 → compPerm pr2.2 pr1.2 = List.range 54) ∧
     ((ndir pr1.1 + ndir pr2.1) % 4 ≠ 0 →
       MOVE_TABLES.lookup (rmove (nface pr1.1) ((ndir pr1.1 + ndir pr2.1) % 4)) =
         some (compPerm pr2.2 pr1.2))) := by
  rw [tables_eq]
  decide

theorem replay_nil (s : List Nat) : replayMoves s [] = some s := rfl

theorem replay_cons (s : List Nat) (m : String) (ms : List String) :
    replayMoves s (m :: ms) = (apply_move s m).bind (fun t => replayMoves t ms) := rfl

theorem replay_append (s : List Nat) (a b : List String) :
    replayMoves s (a ++ b) = (replayMoves s a).bind (fun t => replayMoves t b) := by
  unfold replayMoves
  rw [List.foldlM_append]
  rfl

theorem pass_valid : ∀ ms : List String, (∀ m ∈ ms, m ∈ all_moves) →
    ∀ m ∈ simplify_pass ms, m ∈ all_moves := by
  intro ms
  induction ms using simplify_pass.induct with
  | case1 => intro _ m hm; simp [simplify_pass] at hm
  | case2 m0 =>
    intro hv m hm
    have hv0 : m0 ∈ all_moves := hv m0 (by simp)
    have hrm : rmove (nface m0) (ndir m0) = m0 := valid_rr m0 hv0
    rw [pass_single] at hm
    have hm0 : m = rr m0 := List.mem_singleton.mp hm
    rw [hm0]
    show rmove (nface m0) (ndir m0) ∈ all_moves
    rw [hrm]
    exact hv0
  | case3 m1 m2 rest n1 n2 hcond ih =>
    intro hv m hm
    rw [pass_cons_merge m1 m2 rest hcond] at hm
    rcases List.mem_append.mp hm with hr | hp
    · have hv1 : m1 ∈ all_moves := hv m1 (by simp)
      obtain ⟨h1, h2, h3⟩ := valid_renders m1 hv1
      have hd4 : (ndir m1 + ndir m2) % 4 < 4 := Nat.mod_lt _ (by norm_num)
      have hcases : (ndir m1 + ndir m2) % 4 = 0 ∨ (ndir m1 + ndir m2) % 4 = 1 ∨
          (ndir m1 + ndir m2) % 4 = 2 ∨ (ndir m1 + ndir m2) % 4 = 3 := by omega
      rcases hcases with h | h | h | h <;> rw [h] at hr
      · simp [render_move] at hr
      · rw [show m = nface m1 from by simpa [render_move] using hr]
        exact h1
      · rw [show m = nface m1 ++ "2" from by simpa [render_move] using hr]
        exact h2
      · rw [show m = nface m1 ++ primeStr from by simpa [render_move] using hr]
        exact h3
    · exact ih (fun x hx => hv x
        (List.mem_cons_of_mem _ (List.mem_cons_of_mem _ hx))) m hp
  | case4 m1 m2 rest n1 n2 hcond ih =>
    intro hv m hm
    have hv1 : m1 ∈ all_moves := hv m1 (by simp)
    have hrm : rmove (nface m1) (ndir m1) = m1 := valid_rr m1 hv1
    rw [pass_cons_keep m1 m2 rest hcond, render_eq_rmove _ _ (ndir_cases m1),
      hrm] at hm
    rcases List.mem_append.mp hm with hr | hp
    · rw [List.mem_singleton.mp hr]
      exact hv1
    · exact ih (fun x hx => hv x (List.mem_cons_of_mem _ hx)) m hp

theorem pass_replay : ∀ ms : List String, (∀ m ∈ ms, m ∈ all_moves) →
    ∀ s : List Nat, s.length = 54 →
    replayMoves s (simplify_pass ms) = replayMoves s ms := by
  intro ms
  induction ms using simplify_pass.induct with
  | case1 => intro _ s _; rfl
  | case2 m => intro hv s _; rw [pass_single, show rr m = m from valid_rr m (hv m (by simp))]
  | case3 m1 m2 rest n1 n2 hcond ih =>
    intro hv s h54
    have hv1 : m1 ∈ all_moves := hv m1 (by simp)
    have hv2 : m2 ∈ all_moves := hv m2 (by simp)
    have hvr : ∀ m ∈ rest, m ∈ all_moves := fun m hm =>
      hv m (List.mem_cons_of_mem _ (List.mem_cons_of_mem _ hm))
    obtain ⟨p1, hp1, hm1⟩ := lookup_facts m1 hv1
    obtain ⟨p2, hp2, hm2⟩ := lookup_facts m2 hv2
    have hl1 : p1.length = 54 := (tables_wf (m1, p1) hm1).1
    have hl2 : p2.length = 54 := (tables_wf (m2, p2) hm2).1
    have hb2 : ∀ i ∈ p2, i < 54 := (tables_wf (m2, p2) hm2).2
    have hface : nface m1 = nface m2 := eq_of_beq hcond
    have hmg := tables_merge (m1, p1) hm1 (m2, p2) hm2 hface
    have hA : replayMoves s (m1 :: m2 :: rest) =
        replayMoves (apply_perm p2 (apply_perm p1 s)) rest := by
      rw [replay_cons, apply_move_valid s m1 p1 hp1, Option.some_bind,
        replay_cons, apply_move_valid _ m2 p2 hp2, Option.some_bind]
    have hcomp : apply_perm p2 (apply_perm p1 s) = apply_perm (compPerm p2 p1) s :=
      apply_perm_comp p2 p1 s (fun i hi => by rw [hl1]; exact hb2 i hi)
    rw [pass_cons_merge m1 m2 rest hcond, replay_append]
    by_cases hd0 : (ndir m1 + ndir m2) % 4 = 0
    · have hmg0 : compPerm p2 p1 = List.range 54 := hmg.1 hd0
      rw [hd0]
      rw [show render_move (nface m1) 0 = [] from rfl, replay_nil, Option.some_bind]
      rw [ih hvr s h54, hA, hcomp, hmg0, apply_perm_range s h54]
    · have hmgt : MOVE_TABLES.lookup (rmove (nface m1) ((ndir m1 + ndir m2) % 4)) =
          some (compPerm p2 p1) := hmg.2 hd0
      have hd4 : (ndir m1 + ndir m2) % 4 < 4 := Nat.mod_lt _ (by norm_num)
      rw [render_eq_rmove _ _ (by omega)]
      have hone : replayMoves s [rmove (nface m1) ((ndir m1 + ndir m2) % 4)] =
          some (apply_perm (compPerm p2 p1) s) := by
        rw [replay_cons, apply_move_valid _ _ _ hmgt, Option.some_bind, replay_nil]
      rw [hone, Option.some_bind]
      have h54b : (apply_perm (compPerm p2 p1) s).length = 54 := by
        rw [apply_perm_length]
        simp [compPerm, hl2]
      rw [ih hvr _ h54b, hA, hcomp]
  | case4 m1 m2 rest n1 n2 hcond ih =>
    intro hv s h54
    have hv1 : m1 ∈ all_moves := hv m1 (by simp)
    have hvt : ∀ m ∈ m2 :: rest, m ∈ all_moves := fun m hm =>
      hv m (List.mem_cons_of_mem _ hm)
    obtain ⟨p1, hp1, hm1⟩ := lookup_facts m1 hv1
    have hrm : rmove (nface m1) (ndir m1) = m1 := valid_rr m1 hv1
    rw [pass_cons_keep m1 m2 rest hcond, render_eq_rmove _ _ (ndir_cases m1), hrm,
      replay_append]
    have hone : replayMoves s [m1] = some (apply_perm p1 s) := by
      rw [replay_cons, apply_move_valid _ _ _ hp1, Option.some_bind, replay_nil]
    rw [hone, Option.some_bind]
    have h54b : (apply_perm p1 s).length = 54 := by
      rw [apply_perm_length]
      exact (tables_wf (m1, p1) hm1).1
    rw [ih hvt _ h54b]
    rw [show replayMoves s (m1 :: m2 :: rest) =
        replayMoves (apply_perm p1 s) (m2 :: rest) from by
      rw [replay_cons, apply_move_valid s m1 p1 hp1, Option.some_bind]]

theorem sfix_valid : ∀ (fuel : Nat) (ms : List String),
    (∀ m ∈ ms, m ∈ all_moves) → ∀ m ∈ simplify_fix fuel ms, m ∈ all_moves := by
  intro fuel
  induction fuel with
  | zero => intro ms hv; exact hv
  | succ fuel ih =>
    intro ms hv
    by_cases hemp : ms.isEmpty = true
    · simp [simplify_fix, hemp]
    · have hempf : ms.isEmpty = false := by
        cases h : ms.isEmpty
        · rfl
        · exact absurd h hemp
      have hfix : simplify_fix (fuel+1) ms =
          if (simplify_pass ms).length < ms.length then
            simplify_fix fuel (simplify_pass ms)
          else simplify_pass ms := by
        simp [simplify_fix, hempf]
      rw [hfix]
      by_cases hlt : (simplify_pass ms).length < ms.length
      · rw [if_pos hlt]
        exact ih _ (pass_valid ms hv)
      · rw [if_neg hlt]
        exact pass_valid ms hv

theorem sfix_replay : ∀ (fuel : Nat) (ms : List String), ms.length ≤ fuel →
    (∀ m ∈ ms, m ∈ all_moves) → ∀ s : List Nat, s.length = 54 →
    replayMoves s (simplify_fix fuel ms) = replayMoves s ms := by
  intro fuel
  induction fuel with
  | zero =>
    intro ms hms _ s _
    have hnil : ms = [] := List.length_eq_zero.mp (Nat.le_zero.mp hms)
    subst hnil
    rfl
  | succ fuel ih =>
    intro ms hms hv s h54
    by_cases hemp : ms.isEmpty = true
    · have hnil : ms = [] := by
        cases ms
        · rfl
        · simp [List.isEmpty] at hemp
      subst hnil
      rfl
    · have hempf : ms.isEmpty = false := by
        cases h : ms.isEmpty
        · rfl
        · exact absurd h hemp
      have hfix : simplify_fix (fuel+1) ms =
          if (simplify_pass ms).length < ms.length then
            simplify_fix fuel (simplify_pass ms)
          else simplify_pass ms := by
        simp [simplify_fix, hempf]
      rw [hfix]
      by_cases hlt : (simplify_pass ms).length < ms.length
      · rw [if_pos hlt, ih (simplify_pass ms) (by omega) (pass_valid ms hv) s h54]
        exact pass_replay ms hv s h54
      · rw [if_neg hlt]
        exact pass_replay ms hv s h54

/-- C2 counterexample: on the malformed move U-prime-2 the simplifier and
apply disagree (the simplifier reads it as a half turn, apply falls back to
the quarter turn), so replaying a sequence and its simplification from the
reset state gives different facelet arrays. -/
theorem simplify_effect_counterexample :
    replayMoves reset_stickers (simplify_moves ["U" ++ primeStr ++ "2"]) ≠
      replayMoves reset_stickers ["U" ++ primeStr ++ "2"] := by
  decide

/-- C2 amended: for every sequence of well-formed moves (the 18 table keys)
and every 54-facelet starting state, replaying the sequence and replaying
its simplification produce identical results; malformed move strings can
break this. -/
theorem simplify_preserves_effect (ms : List String)
    (hv : ∀ m ∈ ms, m ∈ all_moves) (s : List Nat) (h54 : s.length = 54) :
    replayMoves s (simplify_moves ms) = replayMoves s ms :=
  sfix_replay ms.length ms (Nat.le_refl _) hv s h54

/-- C2 witness: simplifying the two-move sequence R R preserves its effect on
the reset state. -/
theorem simplify_preserves_effect_witness :
    replayMoves reset_stickers (simplify_moves ["R", "R"]) =
      replayMoves reset_stickers ["R", "R"] :=
  simplify_preserves_effect ["R", "R"] (by decide) reset_stickers (by decide)
